import Mathlib

/-!
Shallow embedding of `src/services/changelogService.ts` (a changelog
fetch/parse service) together with theorems settling the specification
claims about it.

Conventions of the embedding:
* JavaScript strings are modelled as Lean `String` / `List Char`
  (inputs of interest are ASCII apart from an explicit en-dash test, so
  UTF-16 code-unit vs. code-point distinctions do not arise);
* the regular expressions of the source are compiled by hand into
  deterministic matchers, following JS backtracking semantics (leftmost
  match, greedy quantifiers); the derivation of each matcher is noted at
  its definition;
* `fetch` and other IO effects are modelled by explicit outcome oracles
  passed as function arguments.
-/

/-- JS `\s` (whitespace class), restricted to the characters that can occur
in our setting: ASCII whitespace plus NBSP. -/
def isJsWs (c : Char) : Bool :=
  c = ' ' || c = '\t' || c = '\n' || c = '\r' || c = '\x0b' || c = '\x0c' || c = ' '

/-- JS `\w`: `[A-Za-z0-9_]`. -/
def isWordChar (c : Char) : Bool :=
  ('a' ≤ c && c ≤ 'z') || ('A' ≤ c && c ≤ 'Z') || ('0' ≤ c && c ≤ '9') || c = '_'

/-- JS `String.prototype.trim` on a character list. -/
def trimChars (cs : List Char) : List Char :=
  ((cs.dropWhile isJsWs).reverse.dropWhile isJsWs).reverse

/-- Match exactly `n` decimal digits (JS `\d{n}`), returning them and the rest. -/
def digitsN : Nat → List Char → Option (List Char × List Char)
  | 0, cs => some ([], cs)
  | _ + 1, [] => none
  | n + 1, c :: cs =>
    if c.isDigit then (digitsN n cs).map (fun p => (c :: p.1, p.2)) else none

/-- Substring occurrence on character lists (JS `String.prototype.includes`). -/
def listIncl : List Char → List Char → Bool
  | [], sub => sub.isEmpty
  | c :: t, sub => sub.isPrefixOf (c :: t) || listIncl t sub

/-- JS `s.includes(sub)`. -/
def strIncludes (s sub : String) : Bool :=
  listIncl s.data sub.data

/-- JS `String.prototype.toLowerCase` (ASCII-faithful, which covers the
categorization keywords; implemented on the character list so that it
evaluates by kernel reduction). -/
def jsToLower (s : String) : String :=
  String.mk (s.data.map Char.toLower)

/-- JS `String.prototype.split('\n')` on a character list: fields between
newline separators, keeping empty fields. -/
def splitNl : List Char → List (List Char)
  | [] => [[]]
  | '\n' :: t => [] :: splitNl t
  | c :: t =>
    match splitNl t with
    | [] => [[c]]
    | h :: r => (c :: h) :: r

/-- JS `markdown.split('\n')`. -/
def jsSplitNewline (s : String) : List String :=
  (splitNl s.data).map String.mk

/-- The change-kind taxonomy (`ChangelogItem['type']` in `types.ts`). -/
inductive ItemType where
  | breaking
  | removal
  | fix
  | feature
  | other
  deriving DecidableEq, Repr

/-- One categorized bullet line. -/
structure ChangelogItem where
  type : ItemType
  content : String
  deriving DecidableEq, Repr

/-- One parsed version section. -/
structure ChangelogVersion where
  version : String
  date : String
  items : List ChangelogItem
  sourceId : Option String := none
  sourceName : Option String := none
  deriving DecidableEq, Repr

/-- Function `categorizeItem` from `changelogService.ts` (lines 153-170): lower-case the
content, then a first-match-wins chain of substring tests.  JS `&&` binds
tighter than `||`, so the first test is
`breaking ∨ (removed ∧ support)`. -/
def categorizeItem (content : String) : ItemType :=
  let lowerContent := jsToLower content
  if strIncludes lowerContent "breaking" ||
      (strIncludes lowerContent "removed" && strIncludes lowerContent "support") then
    ItemType.breaking
  else if strIncludes lowerContent "removed" || strIncludes lowerContent "deprecated" ||
      strIncludes lowerContent "no longer" then
    ItemType.removal
  else if strIncludes lowerContent "fix" || strIncludes lowerContent "fixed" ||
      strIncludes lowerContent "bug" || strIncludes lowerContent "issue" then
    ItemType.fix
  else if strIncludes lowerContent "add" || strIncludes lowerContent "new" ||
      strIncludes lowerContent "feature" || strIncludes lowerContent "support" then
    ItemType.feature
  else
    ItemType.other

/-- Optional pre-release suffix `(?:-[a-zA-Z0-9.]+)?` of the version regex:
consumed characters, or `[]` when the group does not participate. -/
def tagOf (r : List Char) : List Char :=
  match r with
  | '-' :: r4 =>
    match r4.takeWhile (fun c => c.isAlphanum || c = '.') with
    | [] => []
    | t => '-' :: t
  | _ => []

/-- Body `\d+\.\d+\.\d+(?:-[a-zA-Z0-9.]+)?` of the version regex (the capture
group), matched at the head of the list.  Greedy `\d+` needs no backtracking
because digits and `.` are disjoint. -/
def matchTriplet (cs : List Char) : Option String :=
  match cs.takeWhile Char.isDigit, cs.dropWhile Char.isDigit with
  | [], _ => none
  | d1, '.' :: r1 =>
    match r1.takeWhile Char.isDigit, r1.dropWhile Char.isDigit with
    | [], _ => none
    | d2, '.' :: r2 =>
      match r2.takeWhile Char.isDigit, r2.dropWhile Char.isDigit with
      | [], _ => none
      | d3, r3 => some (String.mk (d1 ++ '.' :: (d2 ++ '.' :: (d3 ++ tagOf r3))))
    | _, _ => none
  | _, _ => none

/-- Clause `\[?` before the version token.  If the `[` is consumed but the token
fails, the regex backtrack (not consuming `[`) also fails, since the token
cannot start with `[`; so consuming an available `[` is deterministic. -/
def matchBracketVer (r : List Char) : Option String :=
  match r with
  | '[' :: t => matchTriplet t
  | _ => matchTriplet r

/-- Clause `\s+\[?(version)` after the leading hashes: at least one whitespace
character, then the optionally bracketed version token.  Greedy `\s+` needs no
backtracking because whitespace, `[` and digits are disjoint. -/
def afterHashes (r : List Char) : Option String :=
  match r with
  | c :: t => if isJsWs c then matchBracketVer (t.dropWhile isJsWs) else none
  | [] => none

/-- Capture group of
`line.match(/^#{1,2}\s+\[?(\d+\.\d+\.\d+(?:-[a-zA-Z0-9.]+)?)\]?/)` from
`parseChangelog` (line 97): one or two leading `#` (three or more fail, since
after backtracking the quantifier the next character is still `#`, not
whitespace), then `afterHashes`.  The trailing `\]?` never affects acceptance
or the capture. -/
def versionCaptureL : List Char → Option String
  | '#' :: '#' :: '#' :: _ => none
  | '#' :: '#' :: r => afterHashes r
  | '#' :: r => afterHashes r
  | _ => none

/-- The version-header capture on a line, as a `String`. -/
def versionCapture (l : String) : Option String :=
  versionCaptureL l.data

/-- Pattern `\d{4}-\d{2}-\d{2}` matched at the head of the list, returning the matched
text and the rest.  All counts are fixed, so there is no backtracking. -/
def ymd (cs : List Char) : Option (String × List Char) :=
  match digitsN 4 cs with
  | some (y, '-' :: r1) =>
    match digitsN 2 r1 with
    | some (m, '-' :: r2) =>
      match digitsN 2 r2 with
      | some (d, r3) => some (String.mk (y ++ '-' :: (m ++ '-' :: d)), r3)
      | none => none
    | _ => none
  | _ => none

/-- Leftmost search for `line.match(/\((\d{4}-\d{2}-\d{2})\)\s*$/)` from
`parseChangelog` (line 111): a parenthesized date whose closing `)` is
followed only by whitespace up to the end of the line; returns the capture. -/
def searchParens : List Char → Option String
  | [] => none
  | '(' :: cs =>
    match ymd cs with
    | some (d, ')' :: rest) =>
      if rest.all isJsWs then some d else searchParens cs
    | _ => searchParens cs
  | _ :: cs => searchParens cs

/-- The character class `[-â€“]` of the dash-date regex (line 115).  The
source file is mojibake-corrupted: the intended en-dash U+2013 (UTF-8
`e2 80 93`) was decoded as Windows-1252 and re-encoded, leaving the three
literal characters `â` (U+00E2), `€` (U+20AC) and `“` (U+201C) in the class
instead.  A real en-dash therefore does not match. -/
def dashClass (c : Char) : Bool :=
  c = '-' || c = 'â' || c = '€' || c = '“'

/-- Clause `\s*\d{4}` with the `\d{4}` allowed to be followed by anything (it is the
last element of its alternative): the whitespace run and the four digits
consumed, or `none`. -/
def wsD4 (r : List Char) : Option (List Char) :=
  match digitsN 4 (r.dropWhile isJsWs) with
  | some (d4, _) => some (r.takeWhile isJsWs ++ d4)
  | none => none

/-- Clause `,?\s*\d{4}`: the greedy `,?` first tries to consume a comma, then falls
back to the empty alternative. -/
def commaTail (r : List Char) : Option (List Char) :=
  match r with
  | ',' :: r4 =>
    match wsD4 r4 with
    | some t => some (',' :: t)
    | none => wsD4 (',' :: r4)
  | _ => wsD4 r

/-- Second alternative `\w+\s+\d+,?\s*\d{4}` of the dash-date regex, matched
at the head of the list; returns the matched text.  `\w+` and `\s+` are
maximal-run (their successors are disjoint from them).  For the greedy `\d+`,
taking the whole digit run `ds` and matching `,?\s*\d{4}` on the rest is tried
first; otherwise the only shorter prefix that can succeed keeps
`ds.length - 4` digits with the final `\d{4}` absorbing the last four, which
needs `ds.length ≥ 5` and again consumes exactly `ds`. -/
def dashAltWords (cs : List Char) : Option String :=
  match cs.takeWhile isWordChar, cs.dropWhile isWordChar with
  | [], _ => none
  | w, r1 =>
    match r1.takeWhile isJsWs, r1.dropWhile isJsWs with
    | [], _ => none
    | sp, r2 =>
      match r2.takeWhile Char.isDigit, r2.dropWhile Char.isDigit with
      | [], _ => none
      | ds, r3 =>
        match commaTail r3 with
        | some t => some (String.mk (w ++ sp ++ ds ++ t))
        | none => if 5 ≤ ds.length then some (String.mk (w ++ sp ++ ds)) else none

/-- Leftmost search for
`line.match(/[-â€“]\s*(\d{4}-\d{2}-\d{2}|\w+\s+\d+,?\s*\d{4})/)` from
`parseChangelog` (line 115), returning the capture group: a `dashClass`
character, greedy `\s*` (no backtracking: whitespace is disjoint from `\d` and
`\w`), then the date alternation, `ymd` tried before `dashAltWords`. -/
def searchDash : List Char → Option String
  | [] => none
  | c :: cs =>
    if dashClass c then
      match (ymd (cs.dropWhile isJsWs)).map Prod.fst <|> dashAltWords (cs.dropWhile isJsWs) with
      | some d => some d
      | none => searchDash cs
    else searchDash cs

/-- Date extraction for a header line (`parseChangelog` lines 110-124): the
parenthesized end-of-line date, else the dash date (trimmed), else — since
the first two captures are never empty or padded, `!date` holds exactly when
neither matched — the `releaseDates` lookup (`releaseDates[version] || ''`,
modelled as an association list), else the empty string. -/
def extractDate (l : String) (v : String) (rd : Option (List (String × String))) : String :=
  match searchParens l.data with
  | some d => d
  | none =>
    match searchDash l.data with
    | some d => String.mk (trimChars d.data)
    | none =>
      match rd with
      | some m => (m.lookup v).getD ""
      | none => ""

/-- Bullet test of `parseChangelog` (line 136):
`line.startsWith('- ') || line.startsWith('* ')`. -/
def isBulletLine (l : String) : Bool :=
  match l.data with
  | '-' :: ' ' :: _ => true
  | '*' :: ' ' :: _ => true
  | _ => false

/-- Bullet content (line 137): `line.slice(2).trim()`. -/
def bulletContent (l : String) : String :=
  String.mk (trimChars (l.data.drop 2))

/-- The `ChangelogItem` built from a bullet line (lines 137-141). -/
def bulletItem (l : String) : ChangelogItem :=
  { type := categorizeItem (bulletContent l), content := bulletContent l }

/-- One iteration of the `for (const line of lines)` loop of `parseChangelog`
(lines 95-144).  State: the open version (`currentVersion`) and the versions
pushed so far. -/
def parseStep (sid sname : Option String) (rd : Option (List (String × String)))
    (st : Option ChangelogVersion × List ChangelogVersion) (l : String) :
    Option ChangelogVersion × List ChangelogVersion :=
  match versionCapture l with
  | some v =>
    (some { version := v, date := extractDate l v rd, items := [],
            sourceId := sid, sourceName := sname },
     st.2 ++ st.1.toList)
  | none =>
    match st.1 with
    | some cur =>
      if isBulletLine l then
        (some { cur with items := cur.items ++ [bulletItem l] }, st.2)
      else st
    | none => st

/-- Function `parseChangelog` on an already-split line list: fold the loop body over
the lines, then close out a still-open version (lines 146-148). -/
def parseChangelogLines (sid sname : Option String) (rd : Option (List (String × String)))
    (lines : List String) : List ChangelogVersion :=
  let st := lines.foldl (parseStep sid sname rd) (none, [])
  st.2 ++ st.1.toList

/-- Function `parseChangelog` from `changelogService.ts` (lines 84-151). -/
def parseChangelog (markdown : String) (sid sname : Option String := none)
    (rd : Option (List (String × String)) := none) : List ChangelogVersion :=
  parseChangelogLines sid sname rd (jsSplitNewline markdown)

/-- Function `getLatestVersion` (lines 172-174): `versions[0]?.version || 'Unknown'`;
note the JS `||`, which also yields `'Unknown'` when the first version string
is empty (falsy). -/
def getLatestVersion (versions : List ChangelogVersion) : String :=
  match versions.head? with
  | some v => if v.version = "" then "Unknown" else v.version
  | none => "Unknown"

/-- Type `Response` of the Fetch API, restricted to the field the service
reads. -/
structure Response where
  status : Nat
  deriving DecidableEq, Repr

/-- Field `Response.ok`: status in the inclusive range 200-299. -/
def respOk (r : Response) : Bool :=
  200 ≤ r.status && r.status ≤ 299

/-- Outcome of one attempt of `fetchWithRetry` (lines 10-13): a transport
error propagates; a non-`ok` response raises `HTTP error! status: ...`;
otherwise the response is returned.  The per-attempt transport outcome is
supplied by an oracle. -/
def attemptResult (o : Except String Response) : Except String Response :=
  match o with
  | Except.error e => Except.error e
  | Except.ok r =>
    if respOk r then Except.ok r
    else Except.error ("HTTP error! status: " ++ toString r.status)

/-- The retry loop of `fetchWithRetry` (lines 8-21), with the remaining
iteration count `retries - i` as structural fuel.  Returns the result, the
list of waits performed (milliseconds: `Math.pow(2, i) * 1000`, only when
`i < retries - 1`, i.e. `0 < remaining` after this attempt), and the number
of attempts made. -/
def fetchGo (f : Nat → Except String Response) (i : Nat) (lastError : Option String) :
    Nat → Except String Response × List Nat × Nat
  | 0 => (Except.error (lastError.getD "Failed to fetch after retries"), [], i)
  | remaining + 1 =>
    match attemptResult (f i) with
    | Except.ok r => (Except.ok r, [], i + 1)
    | Except.error e =>
      let next := fetchGo f (i + 1) (some e) remaining
      if 0 < remaining then (next.1, 2 ^ i * 1000 :: next.2.1, next.2.2) else next

/-- Function `fetchWithRetry` (lines 5-24): up to `retries` attempts (default 3),
driven by the per-attempt transport oracle `f`. -/
def fetchWithRetry (f : Nat → Except String Response) (retries : Nat := 3) :
    Except String Response × List Nat × Nat :=
  fetchGo f 0 none retries

/-- A changelog source (`types.ts`), restricted to the fields
`fetchAllActiveChangelogs` reads. -/
structure ChangelogSource where
  id : String
  name : String
  is_active : Bool
  deriving DecidableEq, Repr

/-- One element of the result of `fetchAllActiveChangelogs`. -/
structure FetchedChangelog where
  sourceId : String
  sourceName : String
  markdown : String
  deriving DecidableEq, Repr

/-- A settled promise (`Promise.allSettled` element). -/
inductive SettledResult (α : Type) where
  | fulfilled (value : α)
  | rejected (reason : String)
  deriving DecidableEq, Repr

/-- The async arrow of `fetchAllActiveChangelogs` (lines 61-75) for one
source: the inner `try`/`catch` returns the fetched entry or `null`, so the
promise always fulfills.  The per-source fetch outcome (the markdown on
success) is supplied by the oracle `f`. -/
def perSourceFetch (f : String → Option String) (source : ChangelogSource) :
    SettledResult (Option FetchedChangelog) :=
  SettledResult.fulfilled ((f source.id).map
    (fun md => { sourceId := source.id, sourceName := source.name, markdown := md }))

/-- Function `fetchAllActiveChangelogs` (lines 56-82): filter the active sources, run
the per-source fetches under `Promise.allSettled`, keep the fulfilled values,
and drop the `null`s of failed fetches. -/
def fetchAllActiveChangelogs (sources : List ChangelogSource)
    (f : String → Option String) : List FetchedChangelog :=
  let activeSources := sources.filter (fun s => s.is_active)
  let results := activeSources.map (perSourceFetch f)
  (results.filterMap (fun r =>
    match r with
    | SettledResult.fulfilled v => some v
    | SettledResult.rejected _ => none)).filterMap id

/-- Events of the sweep-schedule model of `fetchAllActiveChangelogs`. -/
inductive SweepEvent where
  | fetchStart (sourceId : String)
  | fetchEnd (sourceId : String)
  deriving DecidableEq, Repr

/-- Event-loop schedule of `fetchAllActiveChangelogs` (lines 60-76):
`activeSources.map(async ...)` runs each async body synchronously up to its
first `await` — the network fetch — so every active source's fetch is
initiated before any source's response handling runs; `Promise.allSettled`
then processes the completions (modelled here in source order). -/
def sweepTrace (sources : List ChangelogSource) : List SweepEvent :=
  let active := sources.filter (fun s => s.is_active)
  active.map (fun s => SweepEvent.fetchStart s.id) ++
    active.map (fun s => SweepEvent.fetchEnd s.id)

/-- The schedule claimed by the specification (§4.5, §5): source N's work
fully completes before source N+1's begins. -/
def sequentialSweepTrace (sources : List ChangelogSource) : List SweepEvent :=
  ((sources.filter (fun s => s.is_active)).map
    (fun s => [SweepEvent.fetchStart s.id, SweepEvent.fetchEnd s.id])).flatten

/-- The items contributed by a run of lines while a version is open: exactly
the bullet lines, in order. -/
def bulletsOf (rest : List String) : List ChangelogItem :=
  rest.filterMap (fun l => if isBulletLine l then some (bulletItem l) else none)

/-- The specification's "optionally followed by a `-` and an alphanumeric/dot
pre-release tag" (§4.2 step 1), returning the consumed tag and the rest. -/
def specTag (r : List Char) : List Char × List Char :=
  match r with
  | '-' :: r4 =>
    match r4.takeWhile (fun c => c.isAlphanum || c = '.') with
    | [] => ([], '-' :: r4)
    | t => ('-' :: t, r4.dropWhile (fun c => c.isAlphanum || c = '.'))
  | _ => ([], r)

/-- The specification's "semantic-version token of the form
`MAJOR.MINOR.PATCH`" with its optional pre-release tag (§4.2 step 1),
returning the token and the rest of the line. -/
def specVersionToken (cs : List Char) : Option (String × List Char) :=
  match cs.takeWhile Char.isDigit, cs.dropWhile Char.isDigit with
  | [], _ => none
  | d1, '.' :: r1 =>
    match r1.takeWhile Char.isDigit, r1.dropWhile Char.isDigit with
    | [], _ => none
    | d2, '.' :: r2 =>
      match r2.takeWhile Char.isDigit, r2.dropWhile Char.isDigit with
      | [], _ => none
      | d3, r3 =>
        some (String.mk (d1 ++ '.' :: (d2 ++ '.' :: (d3 ++ (specTag r3).1))), (specTag r3).2)
    | _, _ => none
  | _, _ => none

/-- The specification's "followed by whitespace" between the hashes and the
token: at least one whitespace character; returns the rest after the
whitespace run. -/
def specWsSplit (r : List Char) : Option (List Char) :=
  match r with
  | c :: t => if isJsWs c then some (t.dropWhile isJsWs) else none
  | [] => none

/-- The specification's "optionally wrapped in `[...]`" read as balanced:
either the bare token, or `[` token `]`. -/
def specBracketTokenBalanced (x : List Char) : Option String :=
  match x with
  | '[' :: t =>
    match specVersionToken t with
    | some (v, ']' :: _) => some v
    | _ => none
  | _ => (specVersionToken x).map Prod.fst

/-- The bracket clause as the code actually behaves (the amendment of C3):
each square bracket is independently optional, so an unbalanced `[` token is
also accepted. -/
def specBracketToken (x : List Char) : Option String :=
  match x with
  | '[' :: t => (specVersionToken t).map Prod.fst
  | _ => (specVersionToken x).map Prod.fst

/-- Whitespace then the balanced bracket clause. -/
def specAfterHashBalanced (r : List Char) : Option String :=
  match specWsSplit r with
  | none => none
  | some r1 => specBracketTokenBalanced r1

/-- Whitespace then the independent-brackets clause. -/
def specAfterHash (r : List Char) : Option String :=
  match specWsSplit r with
  | none => none
  | some r1 => specBracketToken r1

/-- The version-header pattern exactly as the specification words it (§4.2
step 1): one or two `#`, whitespace, then the semantic-version token
optionally wrapped in balanced `[...]`. -/
def specHeaderMatch (l : String) : Option String :=
  match l.data with
  | '#' :: '#' :: '#' :: _ => none
  | '#' :: '#' :: r => specAfterHashBalanced r
  | '#' :: r => specAfterHashBalanced r
  | _ => none

/-- The amended version-header pattern (C3): as the specification words it,
except that each square bracket is independently optional. -/
def amendedHeaderMatchL : List Char → Option String
  | '#' :: '#' :: '#' :: _ => none
  | '#' :: '#' :: r => specAfterHash r
  | '#' :: r => specAfterHash r
  | _ => none

/-- The amended version-header pattern on a line. -/
def amendedHeaderMatch (l : String) : Option String :=
  amendedHeaderMatchL l.data

/-- Rule 1 of the specification's classification chain (§4.3). -/
def breakingCond (lc : String) : Bool :=
  strIncludes lc "breaking" || (strIncludes lc "removed" && strIncludes lc "support")

/-- Rule 2 of the specification's classification chain (§4.3). -/
def removalCond (lc : String) : Bool :=
  strIncludes lc "removed" || strIncludes lc "deprecated" || strIncludes lc "no longer"

/-- Rule 3 of the specification's classification chain (§4.3). -/
def fixCond (lc : String) : Bool :=
  strIncludes lc "fix" || strIncludes lc "fixed" || strIncludes lc "bug" || strIncludes lc "issue"

/-- Rule 4 of the specification's classification chain (§4.3). -/
def featureCond (lc : String) : Bool :=
  strIncludes lc "add" || strIncludes lc "new" || strIncludes lc "feature" ||
    strIncludes lc "support"

/-- C2: `categorizeItem` is exactly the five-rule precedence chain over the
lower-cased text: `breaking` iff rule 1 fires; `removal` iff rule 1 fails and
rule 2 fires; `fix` iff rules 1-2 fail and rule 3 fires; `feature` iff rules
1-3 fail and rule 4 fires; `other` iff no rule fires.  In particular
"removed support for legacy flag" is classified `breaking`, never
`removal`. -/
theorem categorizeItem_precedence_chain (s : String) :
    (categorizeItem s = ItemType.breaking ↔ breakingCond (jsToLower s) = true) ∧
    (categorizeItem s = ItemType.removal ↔
      breakingCond (jsToLower s) = false ∧ removalCond (jsToLower s) = true) ∧
    (categorizeItem s = ItemType.fix ↔
      breakingCond (jsToLower s) = false ∧ removalCond (jsToLower s) = false ∧
        fixCond (jsToLower s) = true) ∧
    (categorizeItem s = ItemType.feature ↔
      breakingCond (jsToLower s) = false ∧ removalCond (jsToLower s) = false ∧
        fixCond (jsToLower s) = false ∧ featureCond (jsToLower s) = true) ∧
    (categorizeItem s = ItemType.other ↔
      breakingCond (jsToLower s) = false ∧ removalCond (jsToLower s) = false ∧
        fixCond (jsToLower s) = false ∧ featureCond (jsToLower s) = false) ∧
    categorizeItem "removed support for legacy flag" = ItemType.breaking ∧
    categorizeItem "removed support for legacy flag" ≠ ItemType.removal := by
  have e : categorizeItem s =
      (if breakingCond (jsToLower s) then ItemType.breaking
       else if removalCond (jsToLower s) then ItemType.removal
       else if fixCond (jsToLower s) then ItemType.fix
       else if featureCond (jsToLower s) then ItemType.feature
       else ItemType.other) := rfl
  refine ⟨?_, ?_, ?_, ?_, ?_, by decide, by decide⟩ <;>
    · rw [e]
      cases hb : breakingCond (jsToLower s) <;> cases hrm : removalCond (jsToLower s) <;>
        cases hf : fixCond (jsToLower s) <;> cases hft : featureCond (jsToLower s) <;>
          simp

/-- Folding the parse loop maps the version fields of the accumulated result
to the header captures of the processed lines. -/
theorem parse_version_aux (sid sname : Option String) (rd : Option (List (String × String))) :
    ∀ (lines : List String) (st : Option ChangelogVersion × List ChangelogVersion),
      ((lines.foldl (parseStep sid sname rd) st).2 ++
          (lines.foldl (parseStep sid sname rd) st).1.toList).map (fun v => v.version)
        = (st.2 ++ st.1.toList).map (fun v => v.version) ++ lines.filterMap versionCapture := by
  intro lines
  induction lines with
  | nil => intro st; simp
  | cons l ls ih =>
    intro st
    rw [List.foldl_cons, List.filterMap_cons, ih]
    cases h : versionCapture l with
    | some v => simp [parseStep, h]
    | none =>
      rcases st with ⟨cur?, acc⟩
      cases cur? with
      | none => simp [parseStep, h]
      | some cur => cases hb : isBulletLine l <;> simp [parseStep, h, hb]

/-- A header line keeps the same parse-step behaviour whether it has one or
two leading `#`: both reduce to the same matcher runs on the common tail. -/
theorem parseStep_hash (sid sname : Option String) (rd : Option (List (String × String)))
    (st : Option ChangelogVersion × List ChangelogVersion) (s : String) :
    parseStep sid sname rd st ("# " ++ s) = parseStep sid sname rd st ("## " ++ s) := by
  cases s with
  | mk d => rfl

/-- C1: `parseChangelog` yields exactly one `ParsedVersion` per line matching
the version-header pattern, in document order (the version fields are, in
order, the header captures of the lines); replacing a one-`#` header with the
same header under two `#` leaves the whole result unchanged; a document with
zero header matches yields the empty sequence. -/
theorem parseChangelog_one_version_per_header :
    (∀ (md : String) (sid sname : Option String) (rd : Option (List (String × String))),
      (parseChangelog md sid sname rd).map (fun v => v.version)
        = (jsSplitNewline md).filterMap versionCapture) ∧
    (∀ (sid sname : Option String) (rd : Option (List (String × String)))
        (A : List String) (s : String) (B : List String),
      parseChangelogLines sid sname rd (A ++ ("# " ++ s) :: B)
        = parseChangelogLines sid sname rd (A ++ ("## " ++ s) :: B)) ∧
    (∀ (md : String) (sid sname : Option String) (rd : Option (List (String × String))),
      (jsSplitNewline md).filterMap versionCapture = [] →
        parseChangelog md sid sname rd = []) := by
  refine ⟨?_, ?_, ?_⟩
  · intro md sid sname rd
    have h := parse_version_aux sid sname rd (jsSplitNewline md) (none, [])
    simpa [parseChangelog, parseChangelogLines] using h
  · intro sid sname rd A s B
    simp only [parseChangelogLines, List.foldl_append, List.foldl_cons]
    rw [parseStep_hash]
  · intro md sid sname rd h
    have h2 := parse_version_aux sid sname rd (jsSplitNewline md) (none, [])
    rw [h] at h2
    simp only [parseChangelog, parseChangelogLines]
    simp only [Option.toList_none, List.append_nil, List.map_nil, List.nil_append] at h2
    exact List.map_eq_nil_iff.mp h2

/-- Witness for C1: a concrete document with zero header matches parses to
the empty sequence, and a concrete two-header document's version fields are
its header captures in order. -/
theorem parseChangelog_one_version_per_header_witness :
    ((jsSplitNewline "Intro text\nno versions here").filterMap versionCapture = []) ∧
    parseChangelog "Intro text\nno versions here" = [] ∧
    (parseChangelog "## 2.0.0\n- Fixed y\n# 1.9.0").map (fun v => v.version)
      = ["2.0.0", "1.9.0"] := by
  refine ⟨by decide, parseChangelog_one_version_per_header.2.2
    "Intro text\nno versions here" none none none (by decide), ?_⟩
  rw [parseChangelog_one_version_per_header.1 "## 2.0.0\n- Fixed y\n# 1.9.0" none none none]
  decide

/-- C10 counterexample: on a list whose first element has the empty string as
its version, `getLatestVersion` returns `"Unknown"`, not that first version
string (the JS `||` treats the empty string as falsy). -/
theorem getLatestVersion_empty_string_counterexample :
    getLatestVersion [{ version := "", date := "2024-01-01", items := [] }] = "Unknown" ∧
    "Unknown" ≠ "" := by
  exact ⟨rfl, by decide⟩

/-- C10 (amended): `getLatestVersion` returns the first element's version
when that string is nonempty, and the literal `"Unknown"` both when the list
is empty and when the first version string is empty; it performs no ordering
of versions (on `["1.0.0", "2.0.0"]` it returns `"1.0.0"`). -/
theorem getLatestVersion_first_or_unknown :
    getLatestVersion [] = "Unknown" ∧
    (∀ (v : ChangelogVersion) (rest : List ChangelogVersion),
      getLatestVersion (v :: rest) = if v.version = "" then "Unknown" else v.version) ∧
    getLatestVersion
      [{ version := "1.0.0", date := "2024-01-01", items := [] },
       { version := "2.0.0", date := "2024-06-01", items := [] }] = "1.0.0" := by
  exact ⟨rfl, fun v rest => rfl, by decide⟩

/-- C9 counterexample: with two active sources, the schedule of
`fetchAllActiveChangelogs` starts source "b"'s fetch before source "a"'s
work has completed, so it is not the sequential block-by-block schedule the
claim states. -/
theorem sweep_sequential_counterexample :
    sweepTrace [{ id := "a", name := "A", is_active := true },
                { id := "b", name := "B", is_active := true }]
      = [SweepEvent.fetchStart "a", SweepEvent.fetchStart "b",
         SweepEvent.fetchEnd "a", SweepEvent.fetchEnd "b"] ∧
    sequentialSweepTrace [{ id := "a", name := "A", is_active := true },
                          { id := "b", name := "B", is_active := true }]
      = [SweepEvent.fetchStart "a", SweepEvent.fetchEnd "a",
         SweepEvent.fetchStart "b", SweepEvent.fetchEnd "b"] ∧
    sweepTrace [{ id := "a", name := "A", is_active := true },
                { id := "b", name := "B", is_active := true }]
      ≠ sequentialSweepTrace [{ id := "a", name := "A", is_active := true },
                              { id := "b", name := "B", is_active := true }] := by
  exact ⟨rfl, rfl, by decide⟩

/-- C9 (amended): within one sweep `fetchAllActiveChangelogs` processes the
active sources concurrently: the first events of the schedule are the fetch
initiations of all active sources, in source order, and only then do the
per-source completions run; whenever at least two sources are active the
schedule differs from the sequential one the specification describes. -/
theorem sweep_allSettled_concurrent (sources : List ChangelogSource) :
    ((sweepTrace sources).take (sources.filter (fun s => s.is_active)).length
      = (sources.filter (fun s => s.is_active)).map (fun s => SweepEvent.fetchStart s.id)) ∧
    ((sweepTrace sources).drop (sources.filter (fun s => s.is_active)).length
      = (sources.filter (fun s => s.is_active)).map (fun s => SweepEvent.fetchEnd s.id)) ∧
    (2 ≤ (sources.filter (fun s => s.is_active)).length →
      sweepTrace sources ≠ sequentialSweepTrace sources) := by
  refine ⟨?_, ?_, ?_⟩
  · simp only [sweepTrace]
    rw [show (sources.filter (fun s => s.is_active)).length
        = ((sources.filter (fun s => s.is_active)).map
            (fun s => SweepEvent.fetchStart s.id)).length from (List.length_map _ _).symm,
      List.take_left]
  · simp only [sweepTrace]
    rw [show (sources.filter (fun s => s.is_active)).length
        = ((sources.filter (fun s => s.is_active)).map
            (fun s => SweepEvent.fetchStart s.id)).length from (List.length_map _ _).symm,
      List.drop_left]
  · intro h2 heq
    match e : sources.filter (fun s => s.is_active) with
    | [] => rw [e] at h2; simp at h2
    | [a] => rw [e] at h2; simp at h2
    | a :: b :: t =>
      have h1 := congrArg (fun l => l[1]?) heq
      simp only [sweepTrace, sequentialSweepTrace, e] at h1
      simp at h1

/-- While a version is open and no further header occurs, folding the loop
appends exactly the bullet lines' items, in encounter order. -/
theorem parse_bullets_aux (sid sname : Option String) (rd : Option (List (String × String))) :
    ∀ (rest : List String) (cur : ChangelogVersion) (acc : List ChangelogVersion),
      (∀ l ∈ rest, versionCapture l = none) →
      rest.foldl (parseStep sid sname rd) (some cur, acc)
        = (some { cur with items := cur.items ++ bulletsOf rest }, acc) := by
  intro rest
  induction rest with
  | nil => intro cur acc _; simp [bulletsOf]
  | cons l ls ih =>
    intro cur acc h
    have hl : versionCapture l = none := h l (List.mem_cons_self _ _)
    have hls : ∀ x ∈ ls, versionCapture x = none := fun x hx => h x (List.mem_cons_of_mem _ hx)
    rw [List.foldl_cons]
    cases hb : isBulletLine l with
    | false =>
      have hstep : parseStep sid sname rd (some cur, acc) l = (some cur, acc) := by
        simp [parseStep, hl, hb]
      rw [hstep, ih _ _ hls]
      simp [bulletsOf, List.filterMap_cons, hb]
    | true =>
      have hstep : parseStep sid sname rd (some cur, acc) l
          = (some { cur with items := cur.items ++ [bulletItem l] }, acc) := by
        simp [parseStep, hl, hb]
      rw [hstep, ih _ _ hls]
      simp [bulletsOf, List.filterMap_cons, hb]

/-- C6: while a version is open, a line becomes an item of that version iff
it starts with `- ` or `* `; the item's content is the line with the
2-character marker stripped and trimmed, its kind is `categorizeItem` of that
content, items are appended in encounter order, and every other non-header
line is ignored. -/
theorem parseChangelog_bullet_items (sid sname : Option String)
    (rd : Option (List (String × String))) (hline : String) (v : String) (rest : List String)
    (hv : versionCapture hline = some v)
    (hrest : ∀ l ∈ rest, versionCapture l = none) :
    parseChangelogLines sid sname rd (hline :: rest)
      = [{ version := v, date := extractDate hline v rd,
           items := rest.filterMap (fun l =>
             if isBulletLine l then
               some { type := categorizeItem (String.mk (trimChars (l.data.drop 2))),
                      content := String.mk (trimChars (l.data.drop 2)) }
             else none),
           sourceId := sid, sourceName := sname }] := by
  simp only [parseChangelogLines, List.foldl_cons]
  have h1 : parseStep sid sname rd (none, []) hline
      = (some { version := v, date := extractDate hline v rd, items := [],
                sourceId := sid, sourceName := sname }, []) := by
    simp [parseStep, hv]
  rw [h1, parse_bullets_aux sid sname rd rest _ _ hrest]
  simp only [List.nil_append, Option.toList_some, List.nil_append]
  rfl

/-- Witness for C6: a concrete version section with two bullets, an ignored
prose line, and an ignored unmarked line. -/
theorem parseChangelog_bullet_items_witness :
    parseChangelogLines none none none
        ["## 1.0.0", "- Fixed a bug", "some continuation prose", "* Added a thing"]
      = [{ version := "1.0.0", date := "",
           items := [{ type := ItemType.fix, content := "Fixed a bug" },
                     { type := ItemType.feature, content := "Added a thing" }] }] := by
  rw [parseChangelog_bullet_items none none none "## 1.0.0" "1.0.0"
    ["- Fixed a bug", "some continuation prose", "* Added a thing"] (by decide) (by decide)]
  decide

/-- One-step unfolding of the retry loop at positive fuel. -/
theorem fetchGo_succ (f : Nat → Except String Response) (i : Nat) (le : Option String)
    (remaining : Nat) :
    fetchGo f i le (remaining + 1)
      = match attemptResult (f i) with
        | Except.ok r => (Except.ok r, [], i + 1)
        | Except.error e =>
          let next := fetchGo f (i + 1) (some e) remaining
          if 0 < remaining then (next.1, 2 ^ i * 1000 :: next.2.1, next.2.2) else next := rfl

/-- The retry loop at exhausted fuel surfaces the last error, or the generic
exhausted-retries error when none was captured. -/
theorem fetchGo_zero (f : Nat → Except String Response) (i : Nat) (le : Option String) :
    fetchGo f i le 0 = (Except.error (le.getD "Failed to fetch after retries"), [], i) := rfl

/-- C7: an attempt fails exactly on a transport error or a non-2xx status;
`fetchWithRetry` makes up to 3 attempts, returns the response of the first
successful one, waits `2^i` seconds (in ms) between attempt `i` and `i+1`
with no wait after the final attempt, throws the last encountered error when
all attempts fail, and throws the generic exhausted-retries error when no
attempt ran at all. -/
theorem fetchWithRetry_policy (f : Nat → Except String Response) :
    (∀ o : Except String Response,
      (∃ e, attemptResult o = Except.error e) ↔
        ((∃ e, o = Except.error e) ∨
          (∃ r, o = Except.ok r ∧ (r.status < 200 ∨ 299 < r.status)))) ∧
    (∀ r, attemptResult (f 0) = Except.ok r →
      fetchWithRetry f = (Except.ok r, [], 1)) ∧
    (∀ e0 r, attemptResult (f 0) = Except.error e0 → attemptResult (f 1) = Except.ok r →
      fetchWithRetry f = (Except.ok r, [1000], 2)) ∧
    (∀ e0 e1 r, attemptResult (f 0) = Except.error e0 →
      attemptResult (f 1) = Except.error e1 → attemptResult (f 2) = Except.ok r →
      fetchWithRetry f = (Except.ok r, [1000, 2000], 3)) ∧
    (∀ e0 e1 e2, attemptResult (f 0) = Except.error e0 →
      attemptResult (f 1) = Except.error e1 → attemptResult (f 2) = Except.error e2 →
      fetchWithRetry f = (Except.error e2, [1000, 2000], 3)) ∧
    fetchGo f 0 none 0 = (Except.error "Failed to fetch after retries", [], 0) := by
  refine ⟨?_, ?_, ?_, ?_, ?_, rfl⟩
  · intro o
    rcases o with e | r
    · simp [attemptResult]
    · simp only [attemptResult]
      by_cases h : respOk r = true
      · rw [if_pos h]
        simp only [respOk, Bool.and_eq_true, decide_eq_true_eq] at h
        simp
        omega
      · rw [if_neg h]
        simp only [respOk, Bool.and_eq_true, decide_eq_true_eq] at h
        simp
        omega
  · intro r h
    simp only [fetchWithRetry, fetchGo_succ, h]
  · intro e0 r h0 h1
    simp only [fetchWithRetry, fetchGo_succ, h0, h1]
    norm_num
  · intro e0 e1 r h0 h1 h2
    simp only [fetchWithRetry, fetchGo_succ, h0, h1, h2]
    norm_num
  · intro e0 e1 e2 h0 h1 h2
    simp only [fetchWithRetry, fetchGo_succ, fetchGo_zero, h0, h1, h2]
    norm_num

/-- Witness for C7: with a transport failure on attempt 0 and a 200 response
on attempt 1, the retry loop returns the second response after one 1000 ms
wait, in 2 attempts. -/
theorem fetchWithRetry_policy_witness :
    fetchWithRetry
        (fun i => if i = 0 then Except.error "network down" else Except.ok { status := 200 })
      = (Except.ok { status := 200 }, [1000], 2) := by
  exact (fetchWithRetry_policy _).2.2.1 "network down" { status := 200 } rfl rfl

/-- C8: `fetchAllActiveChangelogs` fetches only the sources whose active flag
is set, returns one entry per active source whose fetch succeeds (in source
order), and a fetch failure for one source only omits that source, never the
results of the others. -/
theorem fetchAllActiveChangelogs_isolation (sources : List ChangelogSource)
    (f : String → Option String) :
    (fetchAllActiveChangelogs sources f
      = (sources.filter (fun s => s.is_active)).filterMap
          (fun s => (f s.id).map
            (fun md => { sourceId := s.id, sourceName := s.name, markdown := md }))) ∧
    (∀ e ∈ fetchAllActiveChangelogs sources f,
      ∃ s, s ∈ sources ∧ s.is_active = true ∧ f s.id = some e.markdown ∧
        e.sourceId = s.id ∧ e.sourceName = s.name) := by
  have h1 : fetchAllActiveChangelogs sources f
      = (sources.filter (fun s => s.is_active)).filterMap
          (fun s => (f s.id).map
            (fun md => { sourceId := s.id, sourceName := s.name, markdown := md })) := by
    simp only [fetchAllActiveChangelogs]
    generalize sources.filter (fun s => s.is_active) = active
    induction active with
    | nil => rfl
    | cons a t ih =>
      simp only [List.map_cons, List.filterMap_cons, perSourceFetch]
      cases hfa : f a.id with
      | none => simpa [hfa] using ih
      | some md => simpa [hfa] using ih
  refine ⟨h1, ?_⟩
  intro e he
  rw [h1] at he
  rcases List.mem_filterMap.mp he with ⟨s, hs, hmap⟩
  rcases List.mem_filter.mp hs with ⟨hmem, hact⟩
  rcases Option.map_eq_some'.mp hmap with ⟨md, hfs, hmk⟩
  subst hmk
  exact ⟨s, hmem, by simpa using hact, hfs, rfl, rfl⟩

/-- Witness for C8: of three sources, the inactive one is not fetched and the
failing one is omitted while the remaining active source's result is
returned. -/
theorem fetchAllActiveChangelogs_isolation_witness :
    fetchAllActiveChangelogs
        [{ id := "a", name := "A", is_active := true },
         { id := "b", name := "B", is_active := true },
         { id := "c", name := "C", is_active := false }]
        (fun x => if x = "b" then none else some ("md-" ++ x))
      = [{ sourceId := "a", sourceName := "A", markdown := "md-a" }] := by
  rw [(fetchAllActiveChangelogs_isolation _ _).1]
  decide

/-- C4 counterexample: on a header whose date follows a real en-dash (U+2013)
and that has no parenthesized date, the claim's rule (b) says the date is
extracted, but the code extracts nothing — the en-dash survives in the regex
only as the three mojibake characters of `dashClass`. -/
theorem dateExtraction_endash_counterexample :
    searchParens "## 2.0.0 – 2025-03-04".data = none ∧
    searchDash "## 2.0.0 – 2025-03-04".data = none ∧
    extractDate "## 2.0.0 – 2025-03-04" "2.0.0" none = "" ∧
    parseChangelog "## 2.0.0 – 2025-03-04"
      = [{ version := "2.0.0", date := "", items := [] }] := by
  exact ⟨rfl, rfl, rfl, by decide⟩

/-- C4 (amended): the date of a header line is computed by trying, first
match winning: (a) the parenthesized end-of-line `YYYY-MM-DD` date; (b) a
`YYYY-MM-DD` or `Month DD, YYYY`-style date following a character of the
code's dash class — a hyphen or one of the three mojibake characters left by
the encoding corruption of the intended en-dash — trimmed; (c) the
`releaseDates` lookup when supplied; otherwise the empty string.  The claim's
concrete examples hold, and the extracted date is the date field of the
parsed version. -/
theorem extractDate_rule_order (l v : String) (rd : Option (List (String × String))) :
    (∀ d, searchParens l.data = some d → extractDate l v rd = d) ∧
    (searchParens l.data = none → ∀ d, searchDash l.data = some d →
      extractDate l v rd = String.mk (trimChars d.data)) ∧
    (searchParens l.data = none → searchDash l.data = none → ∀ m, rd = some m →
      extractDate l v rd = (m.lookup v).getD "") ∧
    (searchParens l.data = none → searchDash l.data = none →
      extractDate l v none = "") ∧
    extractDate "## 1.0.50 - 2024-01-12" "1.0.50" none = "2024-01-12" ∧
    extractDate "# [2.3.0](url) (2026-01-05)" "2.3.0" none = "2026-01-05" ∧
    extractDate "## 1.0.50" "1.0.50" none = "" ∧
    extractDate "## 1.0.50" "1.0.50" (some [("1.0.50", "2024-02-02")]) = "2024-02-02" ∧
    parseChangelog "## 1.0.50 - 2024-01-12"
      = [{ version := "1.0.50", date := "2024-01-12", items := [] }] ∧
    parseChangelog "# [2.3.0](url) (2026-01-05)"
      = [{ version := "2.3.0", date := "2026-01-05", items := [] }] := by
  refine ⟨?_, ?_, ?_, ?_, rfl, rfl, rfl, rfl, by decide, by decide⟩
  · intro d hp
    simp [extractDate, hp]
  · intro hp d hd
    simp [extractDate, hp, hd]
  · intro hp hd m hm
    simp [extractDate, hp, hd, hm]
  · intro hp hd
    simp [extractDate, hp, hd]

/-- Witness for C4: the rules applied at concrete header lines through the
amended theorem. -/
theorem extractDate_rule_order_witness :
    extractDate "## 1.0.50 - 2024-01-12" "1.0.50" none
      = String.mk (trimChars "2024-01-12".data) ∧
    extractDate "# [9.9.9] (2030-12-31)" "9.9.9" (some [("9.9.9", "unused")])
      = "2030-12-31" := by
  refine ⟨(extractDate_rule_order "## 1.0.50 - 2024-01-12" "1.0.50" none).2.1 rfl
    "2024-01-12" rfl, ?_⟩
  exact (extractDate_rule_order "# [9.9.9] (2030-12-31)" "9.9.9"
    (some [("9.9.9", "unused")])).1 "2030-12-31" rfl

/-- C5: evaluation of the code at the failing input.  The dash-date character
class does not contain the en-dash U+2013 the specification names; it
contains instead the three characters of its UTF-8/Windows-1252 mojibake, so
the date after an en-dash is lost while the same line with a hyphen parses.
The bug: the source line 115 reads `[-â€“]` where `[-–]` was intended. -/
theorem endash_mojibake_eval :
    dashClass '–' = false ∧
    dashClass 'â' = true ∧ dashClass '€' = true ∧ dashClass '“' = true ∧
    parseChangelog "## 1.2.3 – 2024-01-12"
      = [{ version := "1.2.3", date := "", items := [] }] ∧
    parseChangelog "## 1.2.3 - 2024-01-12"
      = [{ version := "1.2.3", date := "2024-01-12", items := [] }] := by
  exact ⟨rfl, rfl, rfl, rfl, by decide, by decide⟩

/-- The code's pre-release-tag clause agrees with the specification's. -/
theorem tagOf_eq_specTag (r : List Char) : tagOf r = (specTag r).1 := by
  unfold tagOf specTag
  split
  · split <;> rfl
  · rfl

/-- The code's version-token capture agrees with the specification's token. -/
theorem matchTriplet_eq (cs : List Char) :
    matchTriplet cs = (specVersionToken cs).map Prod.fst := by
  unfold matchTriplet specVersionToken
  split
  · rfl
  · split
    · rfl
    · split
      · rfl
      · rw [tagOf_eq_specTag]; rfl
    · rfl
  · rfl

/-- The code's `\[?`-then-token clause agrees with the amended bracket
clause. -/
theorem matchBracketVer_eq (x : List Char) :
    matchBracketVer x = specBracketToken x := by
  unfold matchBracketVer specBracketToken
  split
  · exact matchTriplet_eq _
  · exact matchTriplet_eq _

/-- The code's whitespace-then-version clause agrees with the amended
pattern's. -/
theorem afterHashes_eq (r : List Char) : afterHashes r = specAfterHash r := by
  unfold afterHashes specAfterHash specWsSplit
  cases r with
  | nil => rfl
  | cons c t =>
    cases hc : isJsWs c with
    | true =>
      simp only [hc, if_true]
      exact matchBracketVer_eq _
    | false => simp [hc]

/-- The code's header matcher agrees with the amended pattern on every
character list. -/
theorem versionCaptureL_eq (cs : List Char) :
    versionCaptureL cs = amendedHeaderMatchL cs := by
  unfold versionCaptureL amendedHeaderMatchL
  split
  · rfl
  · exact afterHashes_eq _
  · exact afterHashes_eq _
  · rfl

/-- A line matching the specification's balanced pattern is accepted by the
amended pattern with the same capture. -/
theorem spec_implies_amended (l : String) (v : String)
    (h : specHeaderMatch l = some v) : amendedHeaderMatch l = some v := by
  unfold specHeaderMatch at h
  unfold amendedHeaderMatch amendedHeaderMatchL
  split at h
  · exact absurd h (by simp)
  · unfold specAfterHashBalanced at h
    unfold specAfterHash
    split at h
    · exact absurd h (by simp)
    · unfold specBracketTokenBalanced at h
      unfold specBracketToken
      split at h
      · split at h
        · simp_all
        · exact absurd h (by simp)
      · exact h
  · unfold specAfterHashBalanced at h
    unfold specAfterHash
    split at h
    · exact absurd h (by simp)
    · unfold specBracketTokenBalanced at h
      unfold specBracketToken
      split at h
      · split at h
        · simp_all
        · exact absurd h (by simp)
      · exact h
  · exact absurd h (by simp)

/-- C3 counterexample: the line `"# [1.2.3"` — an unbalanced opening bracket
— is not a version header under the specification's pattern ("optionally
wrapped in `[...]`"), yet `parseChangelog` treats it as one, so the claimed
"if and only if" fails. -/
theorem specHeaderPattern_counterexample :
    specHeaderMatch "# [1.2.3" = none ∧
    versionCapture "# [1.2.3" = some "1.2.3" ∧
    parseChangelog "# [1.2.3" = [{ version := "1.2.3", date := "", items := [] }] :=
  ⟨rfl, rfl, by decide⟩

/-- C3 (amended): a line is treated as a version header iff it starts with
one or two `#`, whitespace, and a `MAJOR.MINOR.PATCH` token with optional
`-`tag, with each square bracket independently optional (rather than
balanced); every balanced-pattern match is still accepted with the same
capture; `"## Unreleased"` never matches and its bullets are dropped since no
version is open; a two-component version does not match. -/
theorem versionHeader_pattern_amended :
    (∀ l : String, versionCapture l = amendedHeaderMatch l) ∧
    (∀ l v, specHeaderMatch l = some v → versionCapture l = some v) ∧
    versionCapture "## Unreleased" = none ∧
    parseChangelog "## Unreleased\n- Removed the legacy thing" = [] ∧
    versionCapture "## 1.2" = none ∧
    versionCapture "# [1.0.50] extra" = some "1.0.50" := by
  refine ⟨?_, ?_, rfl, by decide, rfl, rfl⟩
  · intro l
    exact versionCaptureL_eq l.data
  · intro l v h
    exact (versionCaptureL_eq l.data).trans (spec_implies_amended l v h)

/-- Witness for C3: a balanced bracketed header accepted by the
specification pattern and by the code, through the amended theorem. -/
theorem versionHeader_pattern_amended_witness :
    specHeaderMatch "## [1.0.50] - 2024-01-12" = some "1.0.50" ∧
    versionCapture "## [1.0.50] - 2024-01-12" = some "1.0.50" :=
  ⟨rfl, versionHeader_pattern_amended.2.1 "## [1.0.50] - 2024-01-12" "1.0.50" rfl⟩

/-- Witness for C9: the amended theorem applied to a concrete two-source
sweep. -/
theorem sweep_allSettled_concurrent_witness :
    sweepTrace [{ id := "a", name := "A", is_active := true },
                { id := "x", name := "X", is_active := true }]
      ≠ sequentialSweepTrace [{ id := "a", name := "A", is_active := true },
                              { id := "x", name := "X", is_active := true }] :=
  (sweep_allSettled_concurrent
    [{ id := "a", name := "A", is_active := true },
     { id := "x", name := "X", is_active := true }]).2.2 (by decide)
